import Mathlib

/-!
Verification development for the PiVision repository.

The repository contains two database schemas (a Postgres schema in
src/unnamed/part_000 and a SQLite schema in src/backend/schema.sql), an
operations dashboard (src/dashboard/app.js, whose second half is the
live API-backed version), and design documents describing the analysis
pipeline.  The definitions below are shallow embeddings of those
artifacts: table states are lists of rows, an insert or update subject
to a SQL constraint becomes an Option-valued operation that returns
none exactly when the constraint the database engine enforces would
reject the statement, and the dashboard functions become pure Lean
functions on rational numbers.  Components that the repository only
specifies but does not implement under src/ (the interaction state
machine and the retention job) are modelled from the specification
text, as marked on their definitions.
-/

/-! ## Definitions -/

/-! ### Captures table

Embeds the captures table of src/unnamed/part_000: rows carry the
device identifier, the optional device sequence number and the pipeline
bookkeeping fields.  Columns of the SQL table not touched by any
constraint relevant here are omitted. -/

structure CaptureRow where
  device_id : String
  device_seq : Option Int
  received_at : Int
  storage_class : String
  analysis_status : String
deriving DecidableEq

/-- Embeds the partial unique index captures_device_seq_uniq
(src/unnamed/part_000 lines 71-73): an INSERT into captures is rejected
by the engine exactly when the new row has a present device_seq and
some existing row has the same (device_id, device_seq) pair. -/
def insertCapture (s : List CaptureRow) (r : CaptureRow) : Option (List CaptureRow) :=
  if r.device_seq.isSome = true ∧
      ∃ row ∈ s, row.device_id = r.device_id ∧ row.device_seq = r.device_seq then
    none
  else
    some (r :: s)

/-- The uniqueness invariant of the captures table: any two rows of the
table that share a device and whose earlier row carries a present
sequence number have different sequence numbers. -/
def CapturesUniq (s : List CaptureRow) : Prop :=
  s.Pairwise fun a b =>
    a.device_id = b.device_id → a.device_seq.isSome = true → a.device_seq ≠ b.device_seq

instance (s : List CaptureRow) : Decidable (CapturesUniq s) := by
  unfold CapturesUniq
  infer_instance

/-! ### Event images table

Embeds the event_images table of src/unnamed/part_000 (lines 118-139)
with its UNIQUE (event_id, role) constraint. -/

structure EventImageRow where
  event_id : Nat
  capture_id : Option Nat
  role : String
deriving DecidableEq

/-- Embeds an INSERT into event_images: the UNIQUE (event_id, role)
constraint rejects the statement exactly when an existing row already
links the same event to the same role. -/
def insertEventImage (s : List EventImageRow) (r : EventImageRow) :
    Option (List EventImageRow) :=
  if ∃ row ∈ s, row.event_id = r.event_id ∧ row.role = r.role then
    none
  else
    some (r :: s)

/-- The uniqueness invariant of event_images: no two rows agree on both
the event and the role. -/
def EventImagesUniq (s : List EventImageRow) : Prop :=
  s.Pairwise fun a b => ¬(a.event_id = b.event_id ∧ a.role = b.role)

instance (s : List EventImageRow) : Decidable (EventImagesUniq s) := by
  unfold EventImagesUniq
  infer_instance

/-! ### Device configs table

Embeds the device_configs table of src/unnamed/part_000 with its
UNIQUE (device_id, version) constraint and the partial unique index
device_configs_one_active (lines 189-192) on device_id where
is_active = TRUE. -/

structure DeviceConfigRow where
  device_id : String
  version : Int
  is_active : Bool
deriving DecidableEq

/-- The key column of the partial unique index device_configs_one_active:
the device identifiers of the rows with is_active = TRUE. -/
def activeDevices (s : List DeviceConfigRow) : List String :=
  (s.filter fun r => r.is_active).map fun r => r.device_id

/-- The keys of the UNIQUE (device_id, version) constraint. -/
def deviceVersionKeys (s : List DeviceConfigRow) : List (String × Int) :=
  s.map fun r => (r.device_id, r.version)

/-- Embeds an INSERT into device_configs: the statement succeeds exactly
when both unique indexes still hold distinct keys afterwards, which is
what the engine checks on write. -/
def insertDeviceConfig (s : List DeviceConfigRow) (r : DeviceConfigRow) :
    Option (List DeviceConfigRow) :=
  if (activeDevices (r :: s)).Nodup ∧ (deviceVersionKeys (r :: s)).Nodup then
    some (r :: s)
  else
    none

/-- Embeds an UPDATE of the is_active flag of row i of device_configs:
the engine re-checks the partial unique index on the modified table and
rejects the statement when two active rows would share a device.  The
(device_id, version) key of the row is unchanged by this update. -/
def setConfigActive (s : List DeviceConfigRow) (i : Nat) (b : Bool) :
    Option (List DeviceConfigRow) :=
  match s[i]? with
  | none => none
  | some r =>
    if (activeDevices (s.set i { r with is_active := b })).Nodup then
      some (s.set i { r with is_active := b })
    else none

/-- States of the device_configs table reachable from the empty table
through schema-respecting inserts and updates. -/
inductive ReachDeviceConfigs : List DeviceConfigRow → Prop
  | empty : ReachDeviceConfigs []
  | insert {s r s'} : ReachDeviceConfigs s → insertDeviceConfig s r = some s' →
      ReachDeviceConfigs s'
  | update {s i b s'} : ReachDeviceConfigs s → setConfigActive s i b = some s' →
      ReachDeviceConfigs s'

/-! ### Events tables

Embeds the events table of src/unnamed/part_000 (lines 88-107), whose
confidence column carries CHECK (confidence IS NULL OR (confidence
BETWEEN 0 AND 1)), and the events table of src/backend/schema.sql
(lines 46-56), whose confidence column is declared REAL with no
constraint at all. -/

structure EventRowPg where
  device_id : String
  event_type : String
  confidence : Option ℚ
deriving DecidableEq

/-- The CHECK constraint on confidence in the Postgres schema: NULL is
allowed, a present value must lie between 0 and 1. -/
def confCheckOk : Option ℚ → Bool
  | none => true
  | some v => decide (0 ≤ v) && decide (v ≤ 1)

/-- Embeds an INSERT into the Postgres events table: the CHECK on
confidence rejects any row whose present confidence is out of range. -/
def insertEventPg (s : List EventRowPg) (r : EventRowPg) : Option (List EventRowPg) :=
  if confCheckOk r.confidence = true then some (r :: s) else none

/-- Embeds an UPDATE of the confidence of row i of the Postgres events
table, re-checked against the CHECK constraint. -/
def updateEventConfidencePg (s : List EventRowPg) (i : Nat) (c : Option ℚ) :
    Option (List EventRowPg) :=
  match s[i]? with
  | none => none
  | some r =>
    if confCheckOk c = true then some (s.set i { r with confidence := c }) else none

/-- States of the Postgres events table reachable from the empty table
through inserts and confidence updates. -/
inductive ReachEventsPg : List EventRowPg → Prop
  | empty : ReachEventsPg []
  | insert {s r s'} : ReachEventsPg s → insertEventPg s r = some s' → ReachEventsPg s'
  | update {s i c s'} : ReachEventsPg s → updateEventConfidencePg s i c = some s' →
      ReachEventsPg s'

structure EventRowLite where
  capture_id : Int
  device_id : String
  event_type : String
  event_ts : String
  confidence : Option ℚ
  note : Option String
deriving DecidableEq

/-- Embeds an INSERT into the SQLite events table of
src/backend/schema.sql: the schema places no constraint on confidence,
so every insert succeeds. -/
def insertEventLite (s : List EventRowLite) (r : EventRowLite) : List EventRowLite :=
  r :: s

/-- A concrete event row with confidence 2, outside [0, 1]. -/
def overConfidentEventLite : EventRowLite :=
  { capture_id := 1
    device_id := "camera-01"
    event_type := "interaction_detected"
    event_ts := "2026-02-12T00:00:00Z"
    confidence := some 2
    note := none }

/-! ### Device ROIs table

Embeds the device_rois table of src/unnamed/part_000 (lines 150-167):
the four rectangle coordinates are NOT NULL and each carries
CHECK (col BETWEEN 0 AND 1); the table also has
UNIQUE (device_id, roi_name). -/

structure DeviceRoiRow where
  device_id : String
  roi_name : String
  x : ℚ
  y : ℚ
  w : ℚ
  h : ℚ
deriving DecidableEq

/-- The conjunction of the four coordinate CHECK constraints of
device_rois. -/
def roiChecksOk (r : DeviceRoiRow) : Bool :=
  decide (0 ≤ r.x) && decide (r.x ≤ 1) && decide (0 ≤ r.y) && decide (r.y ≤ 1) &&
    decide (0 ≤ r.w) && decide (r.w ≤ 1) && decide (0 ≤ r.h) && decide (r.h ≤ 1)

/-- Embeds an INSERT into device_rois, rejected when a coordinate CHECK
fails or the UNIQUE (device_id, roi_name) constraint is violated. -/
def insertDeviceRoi (s : List DeviceRoiRow) (r : DeviceRoiRow) :
    Option (List DeviceRoiRow) :=
  if roiChecksOk r = true ∧
      ∀ row ∈ s, ¬(row.device_id = r.device_id ∧ row.roi_name = r.roi_name) then
    some (r :: s)
  else
    none

/-- Embeds an UPDATE of the rectangle of row i of device_rois,
re-checked against the coordinate CHECK constraints. -/
def updateDeviceRoiRect (s : List DeviceRoiRow) (i : Nat) (x y w h : ℚ) :
    Option (List DeviceRoiRow) :=
  match s[i]? with
  | none => none
  | some r =>
    if roiChecksOk { r with x := x, y := y, w := w, h := h } = true then
      some (s.set i { r with x := x, y := y, w := w, h := h })
    else none

/-- States of the device_rois table reachable from the empty table
through schema-respecting inserts and rectangle updates. -/
inductive ReachDeviceRois : List DeviceRoiRow → Prop
  | empty : ReachDeviceRois []
  | insert {s r s'} : ReachDeviceRois s → insertDeviceRoi s r = some s' →
      ReachDeviceRois s'
  | update {s i x y w h s'} : ReachDeviceRois s → updateDeviceRoiRect s i x y w h = some s' →
      ReachDeviceRois s'

/-! ### Interaction state machine and event emitter

Modelled from the spec: the repository has no worker implementation
under src/ (backend/worker.py is absent), so the per-device interaction
state machine of spec section 4.3 and the event emitter of section 4.4
are modelled from the specification text.  Frames arrive as
(timestamp, motion score) pairs; phases are idle, interacting and
cooldown; in idle a run of interaction_min_frames consecutive frames at
or above interaction_threshold starts an interaction whose start
timestamp is the first above-threshold frame of the run; in interacting
a below-threshold frame ends the interaction once the score has stayed
below threshold for interaction_end_timeout_s seconds, measured from
the most recent above-threshold frame, and the emitter then emits one
interaction_detected event; cooldown returns to idle after
burst_cooldown_s seconds. -/

structure StandConfig where
  interaction_threshold : ℚ
  interaction_min_frames : Nat
  interaction_end_timeout_s : ℚ
  burst_cooldown_s : ℚ
deriving DecidableEq

inductive IPhase
  | idle
  | interacting
  | cooldown
deriving DecidableEq

structure IState where
  phase : IPhase
  aboveCount : Nat
  runStart : ℚ
  lastAbove : ℚ
  cooldownStart : ℚ
deriving DecidableEq

structure InteractionEvent where
  event_type : String
  started_at : ℚ
  ended_at : ℚ
deriving DecidableEq

def initIState : IState :=
  { phase := .idle, aboveCount := 0, runStart := 0, lastAbove := 0, cooldownStart := 0 }

/-- Modelled from the spec: one step of the interaction state machine
(spec section 4.3) combined with the event emitter (section 4.4) on a
frame with timestamp t and motion score within the interaction ROI. -/
def stepInteraction (cfg : StandConfig) (st : IState) (t score : ℚ) :
    IState × List InteractionEvent :=
  match st.phase with
  | .idle =>
    if cfg.interaction_threshold ≤ score then
      let start := if st.aboveCount = 0 then t else st.runStart
      let n := st.aboveCount + 1
      if cfg.interaction_min_frames ≤ n then
        ({ st with phase := .interacting, aboveCount := n, runStart := start, lastAbove := t }, [])
      else
        ({ st with aboveCount := n, runStart := start }, [])
    else
      ({ st with aboveCount := 0 }, [])
  | .interacting =>
    if cfg.interaction_threshold ≤ score then
      ({ st with lastAbove := t }, [])
    else if cfg.interaction_end_timeout_s ≤ t - st.lastAbove then
      ({ st with phase := .cooldown, aboveCount := 0, cooldownStart := t },
        [{ event_type := "interaction_detected", started_at := st.runStart,
            ended_at := t }])
    else
      (st, [])
  | .cooldown =>
    if cfg.burst_cooldown_s ≤ t - st.cooldownStart then
      ({ st with phase := .idle, aboveCount := 0 }, [])
    else
      (st, [])

/-- Modelled from the spec: run the interaction state machine over a
frame sequence, accumulating the emitted events in order. -/
def runInteraction (cfg : StandConfig) (frames : List (ℚ × ℚ)) :
    IState × List InteractionEvent :=
  frames.foldl
    (fun acc f =>
      let r := stepInteraction cfg acc.1 f.1 f.2
      (r.1, acc.2 ++ r.2))
    (initIState, [])

/-- The configuration of the concrete scenario of spec section 8. -/
def scenarioConfig : StandConfig :=
  { interaction_threshold := 3 / 10
    interaction_min_frames := 2
    interaction_end_timeout_s := 2
    burst_cooldown_s := 60 }

/-- The frame sequence of the concrete scenario of spec section 8:
motion scores 0.1, 0.35, 0.4, 0.1, 0.1, 0.1 sampled at one frame per
second, so frame index i has timestamp i. -/
def scenarioFrames : List (ℚ × ℚ) :=
  [(0, 1 / 10), (1, 35 / 100), (2, 4 / 10), (3, 1 / 10), (4, 1 / 10), (5, 1 / 10)]

/-! ### Retention job

Modelled from the spec: the repository has no retention implementation
under src/, so the Retention Job of spec section 4.7 is modelled from
the specification text.  The job reads the ages already recorded on
event and capture rows, computes the expired paths (event image folders
of events older than retention_days, staging files of captures older
than 24 hours), and deletes each path; deleting an already-deleted path
counts as success, so deletion is total and only present paths count as
deletions.  Event rows and capture rows are never deleted by the job. -/

structure RetEventRow where
  event_id : Nat
  age_days : ℚ
  image_folder : String
deriving DecidableEq

structure RetCaptureRow where
  capture_id : Nat
  age_hours : ℚ
  staging_path : String
deriving DecidableEq

structure RetState where
  events : List RetEventRow
  captures : List RetCaptureRow
  files : List String
deriving DecidableEq

/-- Modelled from the spec: delete one path from the filesystem.  A
present path is removed and counts as one deletion; an absent path is
treated as success and counts as zero deletions. -/
def deletePath (fs : List String) (p : String) : List String × Nat :=
  if fs.contains p then (fs.filter fun q => q != p, 1) else (fs, 0)

/-- Modelled from the spec: delete a list of paths in order, returning
the remaining files and the number of paths actually deleted. -/
def deleteMany : List String → List String → List String × Nat
  | fs, [] => (fs, 0)
  | fs, p :: ps =>
    let r := deletePath fs p
    let rest := deleteMany r.1 ps
    (rest.1, r.2 + rest.2)

/-- Modelled from the spec: the paths one retention sweep targets, read
from the event and capture rows of the state. -/
def retentionExpired (retentionDays : ℚ) (st : RetState) : List String :=
  ((st.events.filter fun e => decide (retentionDays < e.age_days)).map
      fun e => e.image_folder) ++
    ((st.captures.filter fun c => decide ((24 : ℚ) < c.age_hours)).map
      fun c => c.staging_path)

/-- Modelled from the spec: one run of the Retention Job, returning the
new state and the number of deletions performed.  Event rows and
capture rows are left untouched. -/
def retentionRun (retentionDays : ℚ) (st : RetState) : RetState × Nat :=
  let d := deleteMany st.files (retentionExpired retentionDays st)
  ({ st with files := d.1 }, d.2)

/-! ### Dashboard refresh requests

Embeds the network behaviour of the live dashboard
(src/dashboard/app.js, second half): fetchJson (lines 448-454) performs
a fetch with no method option, hence an HTTP GET, and refreshData
(lines 456-512) is the only caller, issuing exactly six requests to
admin read endpoints under API_BASE = origin + "/api/v1".  Paths are
modelled relative to the origin. -/

inductive HttpMethod
  | GET
  | POST
deriving DecidableEq

structure AdminRequest where
  method : HttpMethod
  path : String
deriving DecidableEq

/-- Embeds fetchJson of src/dashboard/app.js lines 448-454: a fetch
with no method option issues a GET request for the given path. -/
def fetchJson (path : String) : AdminRequest :=
  { method := .GET, path := path }

def API_BASE : String := "/api/v1"

/-- Embeds the six requests issued by refreshData
(src/dashboard/app.js lines 458-465), the only network calls the
dashboard makes. -/
def refreshRequests : List AdminRequest :=
  [ fetchJson (API_BASE ++ "/admin/metrics/system")
  , fetchJson (API_BASE ++ "/admin/metrics/ingest")
  , fetchJson (API_BASE ++ "/admin/metrics/queue")
  , fetchJson (API_BASE ++ "/admin/metrics/database")
  , fetchJson (API_BASE ++ "/admin/events?limit=15")
  , fetchJson (API_BASE ++ "/admin/devices") ]

/-- A path is an admin read endpoint when it lives under
/api/v1/admin/. -/
def isAdminReadPath (p : String) : Bool :=
  "/api/v1/admin/".data.isPrefixOf p.data

/-! ### Dashboard chart rendering

Embeds renderChart of the live dashboard (src/dashboard/app.js lines
285-292) and createEmptySeries (lines 217-219).  A bar height is the
percentage max(10, round(value / max * 100)) where max ranges over the
series elements and the extra argument 1. -/

def createEmptySeries : List ℚ := List.replicate 12 0

/-- Embeds Math.max(...safeSeries, 1). -/
def chartMax (s : List ℚ) : ℚ := s.foldr max 1

/-- Embeds the height computation of one bar:
Math.max(10, Math.round((value / max) * 100)). -/
def barHeight (m v : ℚ) : ℤ := max 10 (round (v / m * 100))

/-- Embeds renderChart: substitute the twelve-zero series for an empty
series, then render one bar per element. -/
def renderChartHeights (series : List ℚ) : List ℤ :=
  let safe := if series.isEmpty then createEmptySeries else series
  safe.map (barHeight (chartMax safe))

/-! ### Dashboard alerts

Embeds buildAlerts of the live dashboard (src/dashboard/app.js lines
427-446).  Alert text interpolation is abstracted into a kind tag; the
severity and the triggering conditions follow the source exactly. -/

structure DashSystem where
  diskRemainingGb : Option ℚ
deriving DecidableEq

structure DashIngest where
  failure60m : Option ℚ
deriving DecidableEq

structure DashQueue where
  depth : ℚ
deriving DecidableEq

structure DashData where
  system : DashSystem
  ingest : DashIngest
  queue : DashQueue
deriving DecidableEq

inductive Severity
  | warn
  | critical
deriving DecidableEq

inductive AlertKind
  | diskLow
  | ingestFailures
  | queueDepth
deriving DecidableEq

structure Alert where
  severity : Severity
  kind : AlertKind
deriving DecidableEq

/-- Embeds buildAlerts: a disk alert when a non-null diskRemainingGb is
below 10 (critical below 5), an ingest alert when the failure count
(null coalesced to 0) reaches 5 (critical at 10), and a queue alert
when the depth reaches 30. -/
def buildAlerts (d : DashData) : List Alert :=
  let diskAlerts : List Alert :=
    match d.system.diskRemainingGb with
    | some disk =>
      if disk < 10 then
        [{ severity := if disk < 5 then .critical else .warn, kind := .diskLow }]
      else []
    | none => []
  let failures : ℚ := d.ingest.failure60m.getD 0
  let ingestAlerts : List Alert :=
    if 10 ≤ failures then [{ severity := .critical, kind := .ingestFailures }]
    else if 5 ≤ failures then [{ severity := .warn, kind := .ingestFailures }]
    else []
  let queueAlerts : List Alert :=
    if 30 ≤ d.queue.depth then [{ severity := .warn, kind := .queueDepth }]
    else []
  diskAlerts ++ ingestAlerts ++ queueAlerts

/-! ### Concrete fixtures

Concrete rows and data objects used to witness the theorems below at
explicit inputs. -/

def c1rowA : CaptureRow :=
  { device_id := "camera-01", device_seq := some 7, received_at := 100,
    storage_class := "staging", analysis_status := "queued" }

def c1rowB : CaptureRow :=
  { device_id := "camera-01", device_seq := some 7, received_at := 101,
    storage_class := "staging", analysis_status := "queued" }

def c4rowA : EventImageRow :=
  { event_id := 1, capture_id := some 10, role := "pre" }

def c5rowA : DeviceConfigRow :=
  { device_id := "camera-01", version := 1, is_active := true }

def c6rowA : EventRowPg :=
  { device_id := "camera-01", event_type := "interaction_detected", confidence := some 1 }

def c7rowA : DeviceRoiRow :=
  { device_id := "camera-01", roi_name := "inventory_roi", x := 0, y := 0, w := 1, h := 1 }

def c9series : List ℚ := [0, 0, 0]

def c10data : DashData :=
  { system := { diskRemainingGb := some 86 }
    ingest := { failure60m := some 3 }
    queue := { depth := 6 } }

/-! ## Theorems -/

theorem insertCapture_preserves (s : List CaptureRow) (h : CapturesUniq s)
    (r : CaptureRow) (s' : List CaptureRow) (hins : insertCapture s r = some s') :
    CapturesUniq s' := by
  unfold insertCapture at hins
  split at hins
  · exact absurd hins (by simp)
  · rename_i hcond
    obtain rfl : r :: s = s' := by simpa using hins
    refine List.Pairwise.cons ?_ h
    intro b hb hdev hsome heq
    exact hcond ⟨hsome, b, hb, hdev.symm, heq.symm⟩

/-- C2: on motion scores 0.1, 0.35, 0.4, 0.1, 0.1, 0.1 sampled at one
frame per second with interaction_threshold 0.3,
interaction_min_frames 2 and interaction_end_timeout_s 2, the
interaction state machine together with the event emitter produces
exactly one interaction_detected event, starting at the timestamp of
frame index 1 (the first of the two consecutive above-threshold
frames) and ending at the timestamp of frame index 4 (after 2 seconds
below threshold counted from index 3, the last above-threshold frame
being index 2). -/
theorem interaction_scenario_one_event :
    (runInteraction scenarioConfig scenarioFrames).2 =
      [{ event_type := "interaction_detected", started_at := 1, ended_at := 4 }] := by
  norm_num [runInteraction, scenarioFrames, scenarioConfig, stepInteraction, initIState]

/-- C8: every request the refresh logic of the live dashboard issues is
an HTTP GET of an admin read endpoint under /api/v1/admin/; fetchJson
is the only network call site and refreshData its only caller, so the
dashboard has no write path into the pipeline state. -/
theorem dashboard_refresh_read_only :
    refreshRequests.Forall
      (fun r => r.method = HttpMethod.GET ∧ isAdminReadPath r.path = true) := by
  decide

/-- C1: under the uniqueness invariant of the captures table, any two
distinct rows of the same device that both carry a present sequence
number have different sequence numbers; an insert accepted by the
partial unique index preserves the invariant; and ingesting a second
row with the same (device, sequence) pair as an existing row is
rejected, so no second Capture row is created. -/
theorem captures_device_seq_unique_and_dedup (s : List CaptureRow) (h : CapturesUniq s) :
    (∀ i j (hi : i < s.length) (hj : j < s.length), i ≠ j →
      (s.get ⟨i, hi⟩).device_id = (s.get ⟨j, hj⟩).device_id →
      (s.get ⟨i, hi⟩).device_seq.isSome = true →
      (s.get ⟨j, hj⟩).device_seq.isSome = true →
      (s.get ⟨i, hi⟩).device_seq ≠ (s.get ⟨j, hj⟩).device_seq) ∧
    (∀ r s', insertCapture s r = some s' → CapturesUniq s') ∧
    (∀ r ∈ s, ∀ r', r'.device_id = r.device_id → r'.device_seq = r.device_seq →
      r.device_seq.isSome = true → insertCapture s r' = none) := by
  refine ⟨?_, ?_, ?_⟩
  · intro i j hi hj hne hdev hsi hsj
    rcases Nat.lt_or_ge i j with hlt | hge
    · exact (List.pairwise_iff_get.mp h ⟨i, hi⟩ ⟨j, hj⟩ hlt) hdev hsi
    · have hlt : j < i := lt_of_le_of_ne hge fun e => hne e.symm
      exact fun heq =>
        (List.pairwise_iff_get.mp h ⟨j, hj⟩ ⟨i, hi⟩ hlt) hdev.symm hsj heq.symm
  · exact fun r s' hins => insertCapture_preserves s h r s' hins
  · intro r hr r' hdev hseq hsome
    have hc : r'.device_seq.isSome = true ∧
        ∃ row ∈ s, row.device_id = r'.device_id ∧ row.device_seq = r'.device_seq :=
      ⟨by rw [hseq]; exact hsome, r, hr, hdev.symm, hseq.symm⟩
    unfold insertCapture
    rw [if_pos hc]

/-- Witness for C1 at a concrete table: a one-row table satisfies the
invariant, and re-ingesting the same (camera-01, 7) pair is rejected. -/
theorem captures_device_seq_witness :
    CapturesUniq [c1rowA] ∧ insertCapture [c1rowA] c1rowB = none := by
  refine ⟨by decide, ?_⟩
  exact (captures_device_seq_unique_and_dedup [c1rowA] (by decide)).2.2 c1rowA
    (by simp) c1rowB rfl rfl rfl

theorem eventImages_atMostOne (s : List EventImageRow) (h : EventImagesUniq s)
    (e : Nat) (ro : String) :
    (s.filter fun x => x.event_id == e && (x.role == ro)).length ≤ 1 := by
  induction s with
  | nil => simp
  | cons a t ih =>
    rw [EventImagesUniq, List.pairwise_cons] at h
    obtain ⟨ha, ht⟩ := h
    rw [List.filter_cons]
    by_cases hmatch : (a.event_id == e && (a.role == ro)) = true
    · rw [if_pos hmatch]
      have hnil : (t.filter fun x => x.event_id == e && (x.role == ro)) = [] := by
        rw [List.filter_eq_nil_iff]
        intro b hb hbm
        simp only [Bool.and_eq_true, beq_iff_eq] at hmatch hbm
        exact ha b hb ⟨hmatch.1.trans hbm.1.symm, hmatch.2.trans hbm.2.symm⟩
      rw [hnil]
      exact le_refl 1
    · rw [if_neg hmatch]
      exact ih ht

theorem insertEventImage_preserves (s : List EventImageRow) (h : EventImagesUniq s)
    (r : EventImageRow) (s' : List EventImageRow)
    (hins : insertEventImage s r = some s') : EventImagesUniq s' := by
  unfold insertEventImage at hins
  split at hins
  · exact absurd hins (by simp)
  · rename_i hcond
    obtain rfl : r :: s = s' := by simpa using hins
    refine List.Pairwise.cons ?_ h
    intro b hb ⟨he, hro⟩
    exact hcond ⟨b, hb, he.symm, hro.symm⟩

/-- C4: under the uniqueness invariant of event_images, every event has
at most one image row per role, and every insertion the UNIQUE
(event_id, role) constraint accepts preserves the invariant, hence also
the at-most-one-per-role property. -/
theorem event_images_role_unique_preserved (s : List EventImageRow)
    (h : EventImagesUniq s) :
    (∀ e ro, (s.filter fun x => x.event_id == e && (x.role == ro)).length ≤ 1) ∧
    (∀ r s', insertEventImage s r = some s' →
      EventImagesUniq s' ∧
      ∀ e ro, (s'.filter fun x => x.event_id == e && (x.role == ro)).length ≤ 1) := by
  refine ⟨fun e ro => eventImages_atMostOne s h e ro, fun r s' hins => ?_⟩
  have h' := insertEventImage_preserves s h r s' hins
  exact ⟨h', fun e ro => eventImages_atMostOne s' h' e ro⟩

/-- Witness for C4 at a concrete table: a one-row table satisfies the
invariant and carries at most one pre image for event 1. -/
theorem event_images_role_unique_witness :
    EventImagesUniq [c4rowA] ∧
    (([c4rowA].filter fun x => x.event_id == 1 && (x.role == "pre")).length ≤ 1) := by
  refine ⟨by decide, ?_⟩
  exact (event_images_role_unique_preserved [c4rowA] (by decide)).1 1 "pre"

theorem activeNodup_atMostOne (s : List DeviceConfigRow)
    (h : (activeDevices s).Nodup) (d : String) :
    (s.filter fun r => r.is_active && (r.device_id == d)).length ≤ 1 := by
  induction s with
  | nil => simp
  | cons a t ih =>
    rw [List.filter_cons]
    by_cases hact : a.is_active = true
    · have hdev : activeDevices (a :: t) = a.device_id :: activeDevices t := by
        simp [activeDevices, List.filter_cons, hact]
      rw [hdev, List.nodup_cons] at h
      obtain ⟨hnot, ht⟩ := h
      by_cases hd : (a.device_id == d) = true
      · rw [if_pos (by rw [hact, hd]; rfl)]
        have hnil : (t.filter fun r => r.is_active && (r.device_id == d)) = [] := by
          rw [List.filter_eq_nil_iff]
          intro b hb hbm
          simp only [Bool.and_eq_true, beq_iff_eq] at hbm
          apply hnot
          have : b.device_id ∈ activeDevices t := by
            simp only [activeDevices, List.mem_map]
            exact ⟨b, List.mem_filter.mpr ⟨hb, hbm.1⟩, rfl⟩
          rw [beq_iff_eq] at hd
          rw [hd, ← hbm.2]
          exact this
        rw [hnil]
        exact le_refl 1
      · rw [if_neg (by simp [hd])]
        exact ih ht
    · have hdev : activeDevices (a :: t) = activeDevices t := by
        simp [activeDevices, List.filter_cons, hact]
      rw [hdev] at h
      rw [if_neg (by simp [hact])]
      exact ih h

theorem reach_activeNodup (s : List DeviceConfigRow) (h : ReachDeviceConfigs s) :
    (activeDevices s).Nodup := by
  induction h with
  | empty => simp [activeDevices]
  | insert hr hins ih =>
    rename_i s r s'
    unfold insertDeviceConfig at hins
    split at hins
    · rename_i hcond
      obtain rfl : r :: s = s' := by simpa using hins
      exact hcond.1
    · exact absurd hins (by simp)
  | update hr hup ih =>
    rename_i s i b s'
    unfold setConfigActive at hup
    split at hup
    · exact absurd hup (by simp)
    · rename_i r hget
      split at hup
      · rename_i hcond
        obtain rfl : s.set i { r with is_active := b } = s' := by simpa using hup
        exact hcond
      · exact absurd hup (by simp)

/-- C5: every device_configs table state reachable from the empty table
through inserts and is_active updates that the partial unique index
device_configs_one_active accepts contains at most one active row per
device. -/
theorem device_configs_one_active_reachable (s : List DeviceConfigRow)
    (h : ReachDeviceConfigs s) (d : String) :
    (s.filter fun r => r.is_active && (r.device_id == d)).length ≤ 1 :=
  activeNodup_atMostOne s (reach_activeNodup s h) d

/-- Witness for C5 at a concrete reachable table: inserting one active
config row for camera-01 into the empty table leaves at most one active
row for that device. -/
theorem device_configs_one_active_witness :
    (([c5rowA].filter fun r => r.is_active && (r.device_id == "camera-01")).length ≤ 1) :=
  device_configs_one_active_reachable [c5rowA]
    (@ReachDeviceConfigs.insert [] c5rowA [c5rowA] ReachDeviceConfigs.empty (by decide))
    "camera-01"

theorem confCheckOk_spec (c : Option ℚ) (h : confCheckOk c = true) :
    c = none ∨ ∃ v, c = some v ∧ 0 ≤ v ∧ v ≤ 1 := by
  cases c with
  | none => exact Or.inl rfl
  | some v =>
    refine Or.inr ⟨v, rfl, ?_⟩
    simpa [confCheckOk] using h

theorem reachEventsPg_checked (s : List EventRowPg) (h : ReachEventsPg s) :
    ∀ row ∈ s, confCheckOk row.confidence = true := by
  induction h with
  | empty => intro row hrow; cases hrow
  | insert hr hins ih =>
    rename_i s r s'
    unfold insertEventPg at hins
    split at hins
    · rename_i hok
      obtain rfl : r :: s = s' := by simpa using hins
      intro row hrow
      rcases List.mem_cons.mp hrow with rfl | hrow
      · exact hok
      · exact ih row hrow
    · exact absurd hins (by simp)
  | update hr hup ih =>
    rename_i s i c s'
    unfold updateEventConfidencePg at hup
    split at hup
    · exact absurd hup (by simp)
    · rename_i r hget
      split at hup
      · rename_i hok
        obtain rfl : s.set i { r with confidence := c } = s' := by simpa using hup
        intro row hrow
        rcases List.mem_or_eq_of_mem_set hrow with hrow | rfl
        · exact ih row hrow
        · exact hok
      · exact absurd hup (by simp)

/-- C6 counterexample: the events table of src/backend/schema.sql
declares confidence REAL with no CHECK constraint, so inserting an
event row whose confidence is 2 succeeds and stores a confidence
outside [0, 1], refuting the claim that no operation can store an
out-of-range confidence. -/
theorem events_confidence_counterexample :
    overConfidentEventLite ∈ insertEventLite [] overConfidentEventLite ∧
    overConfidentEventLite.confidence = some 2 ∧
    ¬((0 : ℚ) ≤ 2 ∧ (2 : ℚ) ≤ 1) := by
  refine ⟨by simp [insertEventLite], rfl, ?_⟩
  intro hc
  exact absurd hc.2 (by norm_num)

/-- C6 amended: in the Postgres schema (src/unnamed/part_000), every
event row of a table state reachable through inserts and confidence
updates that the CHECK constraint accepts has a confidence that is
either NULL or between 0 and 1 inclusive; the SQLite schema
(src/backend/schema.sql) does not enforce this. -/
theorem events_confidence_pg_in_range (s : List EventRowPg) (h : ReachEventsPg s) :
    ∀ row ∈ s, row.confidence = none ∨ ∃ c, row.confidence = some c ∧ 0 ≤ c ∧ c ≤ 1 :=
  fun row hrow => confCheckOk_spec row.confidence (reachEventsPg_checked s h row hrow)

/-- Witness for the amended C6 at a concrete reachable table: a row with
confidence 1 inserted into the empty Postgres events table is in
range. -/
theorem events_confidence_pg_witness :
    c6rowA.confidence = none ∨ ∃ c, c6rowA.confidence = some c ∧ 0 ≤ c ∧ c ≤ 1 :=
  events_confidence_pg_in_range [c6rowA]
    (@ReachEventsPg.insert [] c6rowA [c6rowA] ReachEventsPg.empty (by decide))
    c6rowA (by simp)

theorem roiChecksOk_spec (r : DeviceRoiRow) (h : roiChecksOk r = true) :
    (0 ≤ r.x ∧ r.x ≤ 1) ∧ (0 ≤ r.y ∧ r.y ≤ 1) ∧
    (0 ≤ r.w ∧ r.w ≤ 1) ∧ (0 ≤ r.h ∧ r.h ≤ 1) := by
  simp only [roiChecksOk, Bool.and_eq_true, decide_eq_true_eq] at h
  exact ⟨⟨h.1.1.1.1.1.1.1, h.1.1.1.1.1.1.2⟩, ⟨h.1.1.1.1.1.2, h.1.1.1.1.2⟩,
    ⟨h.1.1.1.2, h.1.1.2⟩, ⟨h.1.2, h.2⟩⟩

theorem reachRois_checked (s : List DeviceRoiRow) (h : ReachDeviceRois s) :
    ∀ row ∈ s, roiChecksOk row = true := by
  induction h with
  | empty => intro row hrow; cases hrow
  | insert hr hins ih =>
    rename_i s r s'
    unfold insertDeviceRoi at hins
    split at hins
    · rename_i hok
      obtain rfl : r :: s = s' := by simpa using hins
      intro row hrow
      rcases List.mem_cons.mp hrow with rfl | hrow
      · exact hok.1
      · exact ih row hrow
    · exact absurd hins (by simp)
  | update hr hup ih =>
    rename_i s i x y w hh s'
    unfold updateDeviceRoiRect at hup
    split at hup
    · exact absurd hup (by simp)
    · rename_i r hget
      split at hup
      · rename_i hok
        obtain rfl : s.set i { r with x := x, y := y, w := w, h := hh } = s' := by
          simpa using hup
        intro row hrow
        rcases List.mem_or_eq_of_mem_set hrow with hrow | rfl
        · exact ih row hrow
        · exact hok
      · exact absurd hup (by simp)

/-- C7: every device_rois table state reachable through inserts and
rectangle updates that the coordinate CHECK constraints accept contains
only rows whose x, y, w, h all lie in the normalized range [0, 1]. -/
theorem device_rois_normalized_reachable (s : List DeviceRoiRow)
    (h : ReachDeviceRois s) :
    ∀ row ∈ s, (0 ≤ row.x ∧ row.x ≤ 1) ∧ (0 ≤ row.y ∧ row.y ≤ 1) ∧
      (0 ≤ row.w ∧ row.w ≤ 1) ∧ (0 ≤ row.h ∧ row.h ≤ 1) :=
  fun row hrow => roiChecksOk_spec row (reachRois_checked s h row hrow)

/-- Witness for C7 at a concrete reachable table: the full-frame ROI row
inserted into the empty table has all coordinates in [0, 1]. -/
theorem device_rois_normalized_witness :
    (0 ≤ c7rowA.x ∧ c7rowA.x ≤ 1) ∧ (0 ≤ c7rowA.y ∧ c7rowA.y ≤ 1) ∧
    (0 ≤ c7rowA.w ∧ c7rowA.w ≤ 1) ∧ (0 ≤ c7rowA.h ∧ c7rowA.h ≤ 1) :=
  device_rois_normalized_reachable [c7rowA]
    (@ReachDeviceRois.insert [] c7rowA [c7rowA] ReachDeviceRois.empty (by decide))
    c7rowA (by simp)

theorem deletePath_subset (fs : List String) (p : String) : (deletePath fs p).1 ⊆ fs := by
  unfold deletePath
  split
  · exact (List.filter_sublist fs).subset
  · exact List.Subset.refl fs

theorem deletePath_not_mem (fs : List String) (p : String) : p ∉ (deletePath fs p).1 := by
  unfold deletePath
  split
  · intro hmem
    have := (List.mem_filter.mp hmem).2
    simp at this
  · rename_i hc
    intro hmem
    exact hc (List.elem_eq_true_of_mem hmem)

theorem deleteMany_subset (ps fs : List String) : (deleteMany fs ps).1 ⊆ fs := by
  induction ps generalizing fs with
  | nil => exact List.Subset.refl fs
  | cons p ps ih =>
    exact List.Subset.trans (ih (deletePath fs p).1) (deletePath_subset fs p)

theorem deleteMany_removes (ps fs : List String) : ∀ p ∈ ps, p ∉ (deleteMany fs ps).1 := by
  induction ps generalizing fs with
  | nil => intro p hp; cases hp
  | cons q ps ih =>
    intro p hp
    rcases List.mem_cons.mp hp with rfl | hp
    · intro hmem
      exact deletePath_not_mem fs p (deleteMany_subset ps (deletePath fs p).1 hmem)
    · exact ih (deletePath fs q).1 p hp

theorem deleteMany_noop (ps fs : List String) (h : ∀ p ∈ ps, p ∉ fs) :
    deleteMany fs ps = (fs, 0) := by
  induction ps with
  | nil => rfl
  | cons p ps ih =>
    have hp : fs.contains p = false := by
      have := h p (List.mem_cons_self p ps)
      simpa using this
    show (let r := deletePath fs p
      let rest := deleteMany r.1 ps
      (rest.1, r.2 + rest.2)) = (fs, 0)
    have hdel : deletePath fs p = (fs, 0) := by
      unfold deletePath
      rw [hp]
      simp
    rw [hdel]
    have hrest := ih fun q hq => h q (List.mem_cons_of_mem p hq)
    simp [hrest]

/-- C3: running the Retention Job a second time on the unchanged dataset
deletes nothing and returns the event rows, capture rows and remaining
files exactly as the first run left them; deletion of an absent path is
success by construction of the model, so no error arises. -/
theorem retention_run_idempotent (days : ℚ) (st : RetState) :
    retentionRun days (retentionRun days st).1 = ((retentionRun days st).1, 0) := by
  have habsent : ∀ p ∈ retentionExpired days (retentionRun days st).1,
      p ∉ (retentionRun days st).1.files :=
    deleteMany_removes (retentionExpired days st) st.files
  have hnoop : deleteMany (retentionRun days st).1.files
      (retentionExpired days (retentionRun days st).1) =
      ((retentionRun days st).1.files, 0) :=
    deleteMany_noop (retentionExpired days (retentionRun days st).1)
      (retentionRun days st).1.files habsent
  show ({ (retentionRun days st).1 with files := (deleteMany (retentionRun days st).1.files
        (retentionExpired days (retentionRun days st).1)).1 },
      (deleteMany (retentionRun days st).1.files
        (retentionExpired days (retentionRun days st).1)).2) = ((retentionRun days st).1, 0)
  rw [hnoop]

theorem one_le_chartMax (s : List ℚ) : 1 ≤ chartMax s := by
  induction s with
  | nil => exact le_refl 1
  | cons a t ih =>
    exact le_max_of_le_right ih

theorem le_chartMax_of_mem (s : List ℚ) (v : ℚ) (h : v ∈ s) : v ≤ chartMax s := by
  induction s with
  | nil => cases h
  | cons a t ih =>
    rcases List.mem_cons.mp h with rfl | h
    · exact le_max_left v (chartMax t)
    · exact le_trans (ih h) (le_max_right a (chartMax t))

theorem barHeight_bounds (m v : ℚ) (h1 : v ≤ m) (hm : 1 ≤ m) :
    10 ≤ barHeight m v ∧ barHeight m v ≤ 100 := by
  refine ⟨le_max_left _ _, max_le (by norm_num) ?_⟩
  have hmpos : (0 : ℚ) < m := lt_of_lt_of_le one_pos hm
  have hdiv : v / m ≤ 1 := (div_le_one hmpos).mpr h1
  have hle : v / m * 100 ≤ 100 := by
    have := mul_le_mul_of_nonneg_right hdiv (by norm_num : (0 : ℚ) ≤ 100)
    simpa using this
  have h100 : round ((100 : ℚ)) = 100 := by
    rw [round_eq]
    norm_num
  calc round (v / m * 100) ≤ round ((100 : ℚ)) := by
        rw [round_eq, round_eq]
        exact Int.floor_le_floor (by linarith)
    _ = 100 := h100

/-- C9: for every series of non-negative rationals, renderChart of the
live dashboard draws one bar per series element, twelve bars when the
series is empty, and every bar height percentage lies between 10 and
100 inclusive; in particular the all-zero series divides by the clamped
maximum 1 rather than by zero. -/
theorem render_chart_heights_bounded (series : List ℚ) (h : ∀ v ∈ series, 0 ≤ v) :
    (renderChartHeights series).length = (if series.isEmpty then 12 else series.length) ∧
    ∀ b ∈ renderChartHeights series, 10 ≤ b ∧ b ≤ 100 := by
  have hsafe : ∀ v ∈ (if series.isEmpty then createEmptySeries else series), 0 ≤ v := by
    split
    · intro v hv
      have hv0 : v = 0 := by simpa [createEmptySeries] using hv
      rw [hv0]
    · exact h
  constructor
  · show ((if series.isEmpty then createEmptySeries else series).map _).length = _
    rw [List.length_map]
    split
    · exact List.length_replicate 12 0
    · rfl
  · intro b hb
    obtain ⟨v, hv, rfl⟩ := List.mem_map.mp hb
    exact barHeight_bounds _ v (le_chartMax_of_mem _ v hv) (one_le_chartMax _)

/-- Witness for C9 at the all-zero series [0, 0, 0]: the hypothesis
holds and the chart has one bar per element. -/
theorem render_chart_heights_witness :
    (∀ v ∈ c9series, 0 ≤ v) ∧
    (renderChartHeights c9series).length =
      (if c9series.isEmpty then 12 else c9series.length) :=
  ⟨by decide, (render_chart_heights_bounded c9series (by decide)).1⟩

/-- C10: for every dashboard data object with a non-null
diskRemainingGb, buildAlerts returns the empty list exactly when the
disk has at least 10 GB remaining, the ingest failure count of the last
hour is below 5, and the queue depth is below 30; and it never returns
more than three alerts.  buildAlerts is a pure function of its
argument, hence deterministic. -/
theorem build_alerts_empty_iff (d : DashData) (disk : ℚ)
    (h : d.system.diskRemainingGb = some disk) :
    (buildAlerts d = [] ↔
      10 ≤ disk ∧ d.ingest.failure60m.getD 0 < 5 ∧ d.queue.depth < 30) ∧
    (buildAlerts d).length ≤ 3 := by
  simp only [buildAlerts, h]
  refine ⟨?_, ?_⟩
  · split_ifs <;>
      (try simp) <;>
      first
        | (intros; linarith)
        | exact ⟨by linarith, by linarith, by linarith⟩
  · split_ifs <;> simp

/-- Witness for C10 at a concrete healthy data object (86 GB free,
3 failures, queue depth 6): no alerts are produced. -/
theorem build_alerts_witness :
    c10data.system.diskRemainingGb = some 86 ∧
    ((buildAlerts c10data = [] ↔
      10 ≤ (86 : ℚ) ∧ c10data.ingest.failure60m.getD 0 < 5 ∧ c10data.queue.depth < 30) ∧
    (buildAlerts c10data).length ≤ 3) :=
  ⟨rfl, build_alerts_empty_iff c10data 86 rfl⟩
